import Mathlib

/-!
Verification development for the lingo translation-resource discovery,
validation and locale-resolution library (Go).  The Go sources are embedded
shallowly: pure functions become Lean functions, filesystem observations
become explicit record fields, and the external collaborators (the BCP 47
parser of golang.org/x/text and the go-i18n message backend) become function
parameters.  Machine integers stay Nat (file sizes are non-negative and no
overflow is relevant at the 1 MiB bound).
-/

namespace Lingo

/-- Model of a parsed golang.org/x/text language.Tag as observed by this
library: `canonical` is the result of the Go method String(), `base` is the
string form of the base language subtag returned by Base().  The parser
itself (language.Parse) is an external collaborator and is passed around as
a function parameter. -/
structure Tag where
  canonical : String
  base : String
deriving DecidableEq, Repr

/-- Model of language.Und, the undefined sentinel tag: String() and the base
subtag both render as und. -/
def und : Tag := ⟨"und", "und"⟩

/-! Character-level models of the Go strings and unicode operations used by
the sources.  They are structurally recursive over the character list of a
string so that every definition reduces inside the kernel. -/

/-- Go strings.HasSuffix: the suffix's characters close the string. -/
def strHasSuffix (s suffix : String) : Bool :=
  decide (s.data.drop (s.data.length - suffix.data.length) = suffix.data)

/-- Go strings.HasPrefix: the prefix's characters open the string. -/
def strHasStart (s start : String) : Bool :=
  decide (s.data.take start.data.length = start.data)

/-- Go strings.ToLower, restricted to the ASCII range exercised here. -/
def strToLower (s : String) : String :=
  String.mk (s.data.map Char.toLower)

/-- Go strings.Split with a one-character separator, over a character
list: splitting the empty text yields one empty field, and each separator
opens a new field. -/
def splitChars (sep : Char) : List Char → List (List Char)
  | [] => [[]]
  | c :: cs =>
      match splitChars sep cs with
      | [] => [[c]]
      | grp :: grps => if c = sep then [] :: grp :: grps else (c :: grp) :: grps

/-- Go strings.Split(s, dot). -/
def strSplitOnDot (s : String) : List String :=
  (splitChars '.' s.data).map String.mk

/-- Drop the last n characters of a string. -/
def strDropRight (s : String) (n : Nat) : String :=
  String.mk (s.data.take (s.data.length - n))

/-- Whether any character of the string satisfies the predicate. -/
def strAnyChar (s : String) (p : Char → Bool) : Bool :=
  s.data.any p

/-- Whether every character of the string satisfies the predicate. -/
def strAllChars (s : String) (p : Char → Bool) : Bool :=
  s.data.all p

/-- Whether the string holds the character. -/
def strHasChar (s : String) (c : Char) : Bool :=
  s.data.any (fun x => x = c)

/-- Whether sub occurs contiguously somewhere in s, over character lists. -/
def hasSubChars (s sub : List Char) : Bool :=
  match s with
  | [] => decide (sub = [])
  | _ :: rest => decide (s.take sub.length = sub) || hasSubChars rest sub

/-- Whether sub occurs contiguously somewhere in s. -/
def strHasSub (s sub : String) : Bool :=
  hasSubChars s.data sub.data

/-- Source: var supportedExtensions = []string{".toml", ".json", ".yaml", ".yml"} -/
def supportedExtensions : List String := [".toml", ".json", ".yaml", ".yml"]

/-- Source: const maxTranslationFileSize = 1024 * 1024 -/
def maxTranslationFileSize : Nat := 1024 * 1024

/-- Source: hasSupportedExtension — lower := strings.ToLower(filename); any
supported extension that is a suffix of lower. -/
def hasSupportedExtension (filename : String) : Bool :=
  supportedExtensions.any (fun ext => strHasSuffix (strToLower filename) ext)

/-- Model of Go strings.TrimSuffix: remove the trailing suffix if present
(exact, case-sensitive match), otherwise return the string unchanged. -/
def trimSuffix (s suffix : String) : String :=
  if strHasSuffix s suffix then strDropRight s suffix.length else s

/-- Filesystem observations about one file, as used by isValidFile:
whether os.Stat succeeds, the reported size in bytes, and whether os.Open
succeeds. -/
structure FileInfo where
  statOk : Bool
  size : Nat
  openable : Bool
deriving DecidableEq, Repr

/-- Source: isValidFile — os.Stat failure rejects; a size strictly above
maxTranslationFileSize rejects; os.Open failure rejects; otherwise valid. -/
def isValidFile (info : FileInfo) : Bool :=
  if !info.statOk then false
  else if info.size > maxTranslationFileSize then false
  else info.openable

/-- Character class [a-zA-Z0-9_-] of the first regex group. -/
def isNameChar (c : Char) : Bool :=
  c.isAlphanum || c = '_' || c = '-'

/-- Character class [a-zA-Z0-9-] of the second regex group. -/
def isLocaleChar (c : Char) : Bool :=
  c.isAlphanum || c = '-'

/-- Matcher for translationFilenameRegex, the anchored pattern
prefix-group dot locale-group dot extension-group with classes
[a-zA-Z0-9_-]+ , [a-zA-Z0-9-]+ and [a-zA-Z0-9]+ .  None of the classes
admits a dot, so a string matches exactly when splitting on the dot yields
three non-empty parts drawn from the respective classes. -/
def translationFilenameRegexMatch (s : String) : Bool :=
  match strSplitOnDot s with
  | [p1, p2, p3] =>
      !p1.data.isEmpty && strAllChars p1 isNameChar &&
      !p2.data.isEmpty && strAllChars p2 isLocaleChar &&
      !p3.data.isEmpty && strAllChars p3 Char.isAlphanum
  | _ => false

/-- Model of Go path/filepath.Base on unix: empty input gives a dot, then
trailing separators are dropped, then everything up to the last separator is
dropped; an all-separator input gives the separator. -/
def filepathBase (path : String) : String :=
  if path = "" then "."
  else
    let p := String.mk ((path.toList.reverse.dropWhile (fun c => c = '/')).reverse)
    if p = "" then "/"
    else String.mk ((p.toList.reverse.takeWhile (fun c => c != '/')).reverse)

/-- Source: the extension-stripping prologue of extractLocaleFromFilename —
walk supportedExtensions in order, and at the first one that is a
case-insensitive suffix of the filename apply strings.TrimSuffix with the
original filename and the lowercase extension, then stop. -/
def stripExtension (filename : String) : String :=
  match supportedExtensions.find? (fun ext => strHasSuffix (strToLower filename) ext) with
  | some ext => trimSuffix filename ext
  | none => filename

/-- Source: the candidate-token part of extractLocaleFromFilename — strip
the extension, split the remainder on the dot, fail when fewer than two
parts remain, otherwise the last part is the candidate locale token. -/
def extractCandidate (filename : String) : Except String String :=
  let nameWithoutExt := stripExtension filename
  let parts := strSplitOnDot nameWithoutExt
  if parts.length < 2 then
    .error ("invalid translation filename format: " ++ filename)
  else
    .ok (parts.getLastD "")

/-- The claim reading of the candidate computation: the first extension
matching as a case-insensitive suffix is stripped from the filename
(actually removed, whatever its case), the remainder is split on the dot,
fewer than two parts is a format error, else the last part is the
candidate. -/
def extractCandidateSpec (filename : String) : Except String String :=
  let nameWithoutExt :=
    match supportedExtensions.find? (fun ext => strHasSuffix (strToLower filename) ext) with
    | some ext => strDropRight filename ext.length
    | none => filename
  let parts := strSplitOnDot nameWithoutExt
  if parts.length < 2 then
    .error ("invalid translation filename format: " ++ filename)
  else
    .ok (parts.getLastD "")

/-- The amended reading: the matched extension is removed only by an exact
case-sensitive trim, so an extension recognized case-insensitively but
written in a different case stays in place. -/
def extractCandidateAmended (filename : String) : Except String String :=
  let nameWithoutExt :=
    match supportedExtensions.find? (fun ext => strHasSuffix (strToLower filename) ext) with
    | some ext => if strHasSuffix filename ext then strDropRight filename ext.length else filename
    | none => filename
  let parts := strSplitOnDot nameWithoutExt
  if parts.length < 2 then
    .error ("invalid translation filename format: " ++ filename)
  else
    .ok (parts.getLastD "")

/-- Source: extractLocaleFromFilename — compute the candidate token and
parse it with language.Parse (the external parser, passed as a parameter);
a parse failure is reported as an invalid-locale error naming the
filename. -/
def extractLocaleFromFilename (parse : String → Except String Tag)
    (filename : String) : Except String Tag :=
  match extractCandidate filename with
  | .error e => .error e
  | .ok localeStr =>
      match parse localeStr with
      | .error e => .error ("invalid locale in filename " ++ filename ++ ": " ++ e)
      | .ok locale => .ok locale

/-- The characters rejected inside a canonical tag string by
validateBCP47Locale. -/
def invalidTagChars : String := "/\\<>:\"|?*"

/-- Source: validateBCP47Locale — reject the und sentinel, an empty base
language, a canonical form longer than 35 characters, or a canonical form
containing a reserved character; otherwise accept (return no error). -/
def validateBCP47Locale (tag : Tag) : Option String :=
  if tag = und then some "undefined language tag"
  else if tag.base = "" then some "invalid base language"
  else if tag.canonical.length > 35 then
    some ("language tag too long: " ++ tag.canonical)
  else if strAnyChar tag.canonical (fun c => strHasChar invalidTagChars c) then
    some ("language tag contains invalid characters: " ++ tag.canonical)
  else none

/-- Source: extractAndValidateLocaleFromFilename — regex check, path
traversal check via filepath.Base, locale extraction, then BCP 47
validation, each failure aborting with its own error. -/
def extractAndValidateLocaleFromFilename (parse : String → Except String Tag)
    (filename : String) : Except String Tag :=
  if !translationFilenameRegexMatch filename then
    .error ("filename '" ++ filename ++ "' does not match expected format")
  else if filepathBase filename != filename then
    .error ("filename '" ++ filename ++ "' contains invalid path characters")
  else
    match extractLocaleFromFilename parse filename with
    | .error e => .error e
    | .ok locale =>
        match validateBCP47Locale locale with
        | some e => .error ("invalid BCP 47 locale in filename '" ++ filename ++ "': " ++ e)
        | none => .ok locale

/-- Source: type translationFile struct { path string; locale language.Tag } -/
structure translationFile where
  path : String
  locale : Tag
deriving DecidableEq, Repr

/-- One directory entry as returned by os.ReadDir: its bare name, whether it
is a directory, and the filesystem observations isValidFile makes on it. -/
structure DirEntry where
  name : String
  isDir : Bool
  info : FileInfo
deriving DecidableEq, Repr

/-- The filesystem state discoverTranslationFiles observes about the
translations path: the os.Stat outcome (existence and directory-ness) and
the os.ReadDir outcome (success flag plus the entry list).  A stat failure
other than non-existence is folded into pathExists here; no claim touches
that branch. -/
structure Directory where
  pathExists : Bool
  pathIsDir : Bool
  readOk : Bool
  entries : List DirEntry
deriving DecidableEq, Repr

/-- The error values discoverTranslationFiles can produce.  The aggregate
constructor carries exactly the data the Go fmt.Errorf interpolates: the
count of invalid files, the prefix list (empty when no prefix message is
added), every invalid file name, and the accepted extension set. -/
inductive ScanError where
  | pathNotFound (path : String)
  | pathNotDirectory (path : String)
  | readFailure (path : String)
  | invalidFiles (count : Nat) (filePrefixes : List String)
      (files : List String) (extensions : List String)
deriving DecidableEq, Repr

/-- Model of Go path/filepath.Join for the one call site joining a
directory with a bare entry name. -/
def joinPath (dir name : String) : String := dir ++ "/" ++ name

/-- The per-entry loop body of discoverTranslationFiles: skip directories,
skip unsupported extensions, skip prefix-unmatched names, collect files
failing isValidFile or locale extraction as invalid, and otherwise produce
a descriptor.  Returns the valid descriptors and the invalid names, both in
entry order. -/
def scanEntries (parse : String → Except String Tag) (translationsPath : String)
    (filePrefixes : List String) : List DirEntry → List translationFile × List String
  | [] => ([], [])
  | entry :: rest =>
      let (vs, ivs) := scanEntries parse translationsPath filePrefixes rest
      if entry.isDir then (vs, ivs)
      else if !hasSupportedExtension entry.name then (vs, ivs)
      else if !(filePrefixes.isEmpty ||
          filePrefixes.any (fun p => strHasStart entry.name (p ++ "."))) then (vs, ivs)
      else if !isValidFile entry.info then (vs, entry.name :: ivs)
      else
        match extractAndValidateLocaleFromFilename parse entry.name with
        | .error _ => (vs, entry.name :: ivs)
        | .ok locale => (⟨joinPath translationsPath entry.name, locale⟩ :: vs, ivs)

/-- Source: discoverTranslationFiles — fail on a missing path, a
non-directory path or a read failure; otherwise run the entry loop and, when
any invalid file was collected, return the valid list together with the
aggregated error naming every invalid file and the accepted extensions. -/
def discoverTranslationFiles (parse : String → Except String Tag)
    (dir : Directory) (translationsPath : String) (filePrefixes : List String) :
    List translationFile × Option ScanError :=
  if !dir.pathExists then ([], some (.pathNotFound translationsPath))
  else if !dir.pathIsDir then ([], some (.pathNotDirectory translationsPath))
  else if !dir.readOk then ([], some (.readFailure translationsPath))
  else
    let (valid, invalid) := scanEntries parse translationsPath filePrefixes dir.entries
    if invalid.isEmpty then (valid, none)
    else (valid, some (.invalidFiles invalid.length filePrefixes invalid supportedExtensions))

/-- The error values NewI18n can produce. -/
inductive BuildError where
  | discoverFailed (e : ScanError)
  | noTranslationFiles (path : String)
  | loadFailure (path : String) (err : String)
  | defaultLocaleMissing (tag : Tag)
deriving DecidableEq, Repr

/-- The registry state of I18nLocalizerService: the per-locale handle map
(modelled as an association list with Go-map lookup semantics for the keys
in use) and the default language.  The bundle field only feeds the external
backend and carries no state this model observes. -/
structure I18nLocalizerService (α : Type) where
  localizers : List (Tag × α)
  defaultLang : Tag

/-- Go map lookup over the association list backing the localizers map. -/
def lookupLocalizer {α : Type} : List (Tag × α) → Tag → Option α
  | [], _ => none
  | (k, v) :: rest, t => if k = t then some v else lookupLocalizer rest t

/-- The load loop of NewI18n: call bundle.LoadMessageFile (the external
backend, a parameter) on each descriptor in order, abort at the first
failure with a loadFailure naming that path, and otherwise collect the
locales in order. -/
def loadAll (backendLoad : String → Except String Unit) :
    List translationFile → Except BuildError (List Tag)
  | [] => .ok []
  | file :: rest =>
      match backendLoad file.path with
      | .error e => .error (.loadFailure file.path e)
      | .ok _ =>
          match loadAll backendLoad rest with
          | .error e => .error e
          | .ok locales => .ok (file.locale :: locales)

/-- Source: NewI18n — discover the translation files (aborting on a
discovery error), fail when none were found, load every file through the
backend (aborting on the first failure), verify the default language is
among the loaded locales, and only then build the localizer map.  Bundle
creation, the unmarshal-function registration and i18n.NewLocalizer are
external; the last is the newLocalizer parameter. -/
def NewI18n {α : Type} (parse : String → Except String Tag)
    (backendLoad : String → Except String Unit) (newLocalizer : Tag → α)
    (defaultLang : Tag) (dir : Directory) (translationsPath : String)
    (filePrefixes : List String) : Except BuildError (I18nLocalizerService α) :=
  match discoverTranslationFiles parse dir translationsPath filePrefixes with
  | (_, some e) => .error (.discoverFailed e)
  | (translationFiles, none) =>
      if translationFiles.isEmpty then .error (.noTranslationFiles translationsPath)
      else
        match loadAll backendLoad translationFiles with
        | .error e => .error e
        | .ok availableLocales =>
            if defaultLang ∈ availableLocales then
              .ok ⟨availableLocales.map (fun l => (l, newLocalizer l)), defaultLang⟩
            else .error (.defaultLocaleMissing defaultLang)

/-- Source: GetLocalizer — exact map lookup; on a miss return the default
language localizer with found set to false, or an error when even the
default localizer is absent. -/
def GetLocalizer {α : Type} (t : I18nLocalizerService α) (lang : Tag) :
    Option α × Bool × Option String :=
  match lookupLocalizer t.localizers lang with
  | some localizer => (some localizer, true, none)
  | none =>
      match lookupLocalizer t.localizers t.defaultLang with
      | some defaultLocalizer => (some defaultLocalizer, false, none)
      | none => (none, false,
          some ("default localizer " ++ t.defaultLang.canonical ++
            " not found, please check your translations configuration"))

/-- Source: type Message struct { ID string; Data interface; PluralCount
interface } — the two optional interface fields are Options over abstract
payload types, none standing for the nil interface. -/
structure Message (δ κ : Type) where
  ID : String
  Data : Option δ
  PluralCount : Option κ
deriving DecidableEq, Repr

/-- Source: NewMessage — only the ID is set; Data and PluralCount keep
their zero value, the nil interface. -/
def NewMessage {δ κ : Type} (id : String) : Message δ κ := ⟨id, none, none⟩

/-- Source: WithData — set the Data field and return the message. -/
def Message.WithData {δ κ : Type} (m : Message δ κ) (data : δ) : Message δ κ :=
  { m with Data := some data }

/-- Source: WithPluralCount — set the PluralCount field and return the
message. -/
def Message.WithPluralCount {δ κ : Type} (m : Message δ κ) (count : κ) : Message δ κ :=
  { m with PluralCount := some count }

/-- A value passed through the interface-typed localizer parameter of
Translate: either an actual backend localizer handle or a value of any
other dynamic type, remembered by its type name (the %T verb). -/
inductive LocalizerArg (α : Type) where
  | localizer (loc : α)
  | other (typeName : String)
deriving DecidableEq, Repr

/-- Source: the i18n.LocalizeConfig assembled by Translate. -/
structure LocalizeConfig (δ κ : Type) where
  MessageID : String
  TemplateData : Option δ
  PluralCount : Option κ
deriving DecidableEq, Repr

/-- The error values Translate can produce. -/
inductive TranslateError where
  | invalidLocalizerType (gotType : String)
  | nilMessage
  | emptyMessageID
  | localizeFailure (messageID : String) (err : String)
deriving DecidableEq, Repr

/-- Source: Translate — type-assert the localizer first, then reject a nil
message, then an empty message ID, then hand the assembled LocalizeConfig
to the external Localize (the backendLocalize parameter), wrapping its
failure.  The method reads nothing from its receiver, so the receiver is
omitted here. -/
def Translate {α δ κ : Type}
    (backendLocalize : α → LocalizeConfig δ κ → Except String String)
    (localizer : LocalizerArg α) (message : Option (Message δ κ)) :
    String × Bool × Option TranslateError :=
  match localizer with
  | .other typeName => ("", false, some (.invalidLocalizerType typeName))
  | .localizer loc =>
      match message with
      | none => ("", false, some .nilMessage)
      | some m =>
          if m.ID = "" then ("", false, some .emptyMessageID)
          else
            match backendLocalize loc ⟨m.ID, m.Data, m.PluralCount⟩ with
            | .error e => ("", false, some (.localizeFailure m.ID e))
            | .ok result => (result, true, none)

/-- Source: SetLocalizerService — under the global lock, snapshot the
previously held service, install the new one, and hand back a closure that
re-installs the snapshot.  State passing is explicit: the first component
is the new holder state, the second is the snapshot the returned closure
captured. -/
def SetLocalizerService {σ : Type} (state : Option σ) (service : Option σ) :
    Option σ × Option σ :=
  (service, state)

/-- Invoking a restore closure returned by SetLocalizerService: the closure
body calls SetLocalizerService with its captured snapshot, so the holder
state becomes the snapshot whatever the current state is. -/
def applyRestore {σ : Type} (snapshot : Option σ) (state : Option σ) : Option σ :=
  (SetLocalizerService state snapshot).1

/-- Source: GetLocalizerService — read the held reference. -/
def GetLocalizerService {σ : Type} (state : Option σ) : Option σ := state

/-! Concrete instances used by the witnesses. -/

/-- A parser accepting exactly the tag en, as language.Parse does on that
input; everything else is rejected. -/
def parseEn : String → Except String Tag :=
  fun s => if s = "en" then .ok ⟨"en", "en"⟩ else .error "language: tag is not well-formed"

/-- A small regular readable file. -/
def okInfo : FileInfo := ⟨true, 20, true⟩

/-- Spec scenario 4: a directory holding one file with an empty locale
segment and one valid file. -/
def scenario4Dir : Directory :=
  ⟨true, true, true, [⟨"invalid..toml", false, okInfo⟩, ⟨"active.en.toml", false, okInfo⟩]⟩

/-- A directory holding a single valid English translation file. -/
def goodDir : Directory := ⟨true, true, true, [⟨"active.en.toml", false, okInfo⟩]⟩

/-- The parsed tag en. -/
def enTag : Tag := ⟨"en", "en"⟩

/-- The parsed tag fr. -/
def frTag : Tag := ⟨"fr", "fr"⟩

/-- A registry holding one English localizer handle with English as its
default language. -/
def enService : I18nLocalizerService Nat := ⟨[(enTag, 7)], enTag⟩

/-! Supporting lemmas about the load loop of NewI18n. -/

/-- A successful load run means every descriptor loaded and the collected
locales are the descriptors' locales in order. -/
theorem loadAll_ok_locales (backendLoad : String → Except String Unit) :
    ∀ files locales, loadAll backendLoad files = .ok locales →
      locales = files.map translationFile.locale ∧
      ∀ f ∈ files, backendLoad f.path = .ok () := by
  intro files
  induction files with
  | nil => intro locales h; simp [loadAll] at h; simp [h.symm]
  | cons file rest ih =>
      intro locales h
      unfold loadAll at h
      rcases hb : backendLoad file.path with e | u
      · rw [hb] at h; exact absurd h (by simp)
      · rw [hb] at h
        rcases hr : loadAll backendLoad rest with e | ls
        · rw [hr] at h; exact absurd h (by simp)
        · rw [hr] at h
          simp at h
          obtain ⟨h1, h2⟩ := ih ls hr
          refine ⟨by simp [h.symm, h1], ?_⟩
          intro f hf
          rcases List.mem_cons.mp hf with hf | hf
          · subst hf; rw [hb]
          · exact h2 f hf

/-- When every descriptor loads, the load run succeeds with the locale
list. -/
theorem loadAll_ok_of_all (backendLoad : String → Except String Unit) :
    ∀ files, (∀ f ∈ files, backendLoad f.path = .ok ()) →
      loadAll backendLoad files = .ok (files.map translationFile.locale) := by
  intro files
  induction files with
  | nil => intro _; rfl
  | cons file rest ih =>
      intro h
      unfold loadAll
      rw [h file (List.mem_cons_self file rest), ih (fun f hf => h f (List.mem_cons_of_mem file hf))]
      rfl

/-- When some descriptor fails to load, the load run aborts with a
loadFailure naming a failing descriptor's path and its backend error. -/
theorem loadAll_error_of_mem (backendLoad : String → Except String Unit) :
    ∀ files, (∃ f ∈ files, ∃ e, backendLoad f.path = .error e) →
      ∃ p e, loadAll backendLoad files = .error (.loadFailure p e) ∧
        ∃ f ∈ files, f.path = p ∧ backendLoad p = .error e := by
  intro files
  induction files with
  | nil => rintro ⟨f, hf, _⟩; exact absurd hf (by simp)
  | cons file rest ih =>
      rintro ⟨f, hf, e, he⟩
      rcases hb : backendLoad file.path with e0 | u
      · refine ⟨file.path, e0, ?_, file, List.mem_cons_self file rest, rfl, hb⟩
        unfold loadAll
        rw [hb]
      · rcases List.mem_cons.mp hf with hfe | hfr
        · subst hfe; rw [hb] at he; exact absurd he (by simp)
        · obtain ⟨p, e', hrun, f', hf', hp, he'⟩ := ih ⟨f, hfr, e, he⟩
          refine ⟨p, e', ?_, f', List.mem_cons_of_mem file hf', hp, he'⟩
          unfold loadAll
          rw [hb, hrun]

/-! Claim theorems. -/

/-- C1: when the default locale is present in the registry's localizer map,
GetLocalizer on the default locale returns its handle with found true and
no error, and GetLocalizer on any locale absent from the map returns the
default handle with found false and no error. -/
theorem GetLocalizer_resolution {α : Type} (s : I18nLocalizerService α) (dh : α)
    (hd : lookupLocalizer s.localizers s.defaultLang = some dh) :
    GetLocalizer s s.defaultLang = (some dh, true, none) ∧
    ∀ lang, lookupLocalizer s.localizers lang = none →
      GetLocalizer s lang = (some dh, false, none) := by
  constructor
  · unfold GetLocalizer
    rw [hd]
  · intro lang hl
    unfold GetLocalizer
    rw [hl, hd]

/-- Witness for C1 on a one-locale registry: the default handle resolves
with found true, and a missing locale falls back with found false. -/
theorem GetLocalizer_resolution_witness :
    lookupLocalizer enService.localizers enService.defaultLang = some 7 ∧
    GetLocalizer enService enService.defaultLang = (some 7, true, none) ∧
    GetLocalizer enService ⟨"es", "es"⟩ = (some 7, false, none) :=
  ⟨by decide,
   (GetLocalizer_resolution enService 7 (by decide)).1,
   (GetLocalizer_resolution enService 7 (by decide)).2 ⟨"es", "es"⟩ (by decide)⟩

/-- C2: on a readable directory, the scan always hands back the valid
descriptor list computed by the entry loop; the error component is present
exactly when the invalid set is non-empty, and any returned error is the
aggregate naming every invalid file and the accepted extension set. -/
theorem discoverTranslationFiles_aggregation (parse : String → Except String Tag)
    (dir : Directory) (path : String) (filePrefixes : List String)
    (h1 : dir.pathExists = true) (h2 : dir.pathIsDir = true) (h3 : dir.readOk = true) :
    (discoverTranslationFiles parse dir path filePrefixes).1
      = (scanEntries parse path filePrefixes dir.entries).1 ∧
    ((discoverTranslationFiles parse dir path filePrefixes).2.isSome
      ↔ (scanEntries parse path filePrefixes dir.entries).2 ≠ []) ∧
    ∀ e, (discoverTranslationFiles parse dir path filePrefixes).2 = some e →
      e = ScanError.invalidFiles (scanEntries parse path filePrefixes dir.entries).2.length
            filePrefixes (scanEntries parse path filePrefixes dir.entries).2
            supportedExtensions := by
  rcases hsc : scanEntries parse path filePrefixes dir.entries with ⟨valid, invalid⟩
  unfold discoverTranslationFiles
  rw [h1, h2, h3, hsc]
  by_cases hi : invalid = []
  · subst hi
    simp
  · simp [hi, List.isEmpty_iff]

/-- Witness for C2 on spec scenario 4: the directory with one invalid and
one valid file yields the one valid descriptor together with an aggregate
error naming the invalid file. -/
theorem discoverTranslationFiles_aggregation_witness :
    scenario4Dir.pathExists = true ∧
    (discoverTranslationFiles parseEn scenario4Dir "translations" []).1
      = [⟨"translations/active.en.toml", enTag⟩] ∧
    (discoverTranslationFiles parseEn scenario4Dir "translations" []).2
      = some (ScanError.invalidFiles 1 [] ["invalid..toml"] supportedExtensions) := by
  have h := discoverTranslationFiles_aggregation parseEn scenario4Dir "translations" []
    rfl rfl rfl
  refine ⟨rfl, ?_, ?_⟩
  · rw [h.1]
    decide
  · have := h.2.2
    decide

/-- C3: with a clean discovery producing a non-empty descriptor list, any
backend load failure makes NewI18n abort with a loadFailure naming a
failing path (so no registry is produced), an all-loads-succeed run with
the default locale absent aborts with defaultLocaleMissing, and a
successful construction implies every load succeeded and the default
locale is among the loaded locales. -/
theorem NewI18n_failfast {α : Type} (parse : String → Except String Tag)
    (backendLoad : String → Except String Unit) (newLocalizer : Tag → α)
    (defaultLang : Tag) (dir : Directory) (path : String)
    (filePrefixes : List String) (files : List translationFile)
    (hdisc : discoverTranslationFiles parse dir path filePrefixes = (files, none))
    (hne : files ≠ []) :
    ((∃ f ∈ files, ∃ e, backendLoad f.path = .error e) →
       ∃ p e, NewI18n parse backendLoad newLocalizer defaultLang dir path filePrefixes
           = .error (.loadFailure p e) ∧
         ∃ f ∈ files, f.path = p ∧ backendLoad p = .error e) ∧
    ((∀ f ∈ files, backendLoad f.path = .ok ()) →
       defaultLang ∉ files.map translationFile.locale →
       NewI18n parse backendLoad newLocalizer defaultLang dir path filePrefixes
         = .error (.defaultLocaleMissing defaultLang)) ∧
    (∀ s, NewI18n parse backendLoad newLocalizer defaultLang dir path filePrefixes = .ok s →
       (∀ f ∈ files, backendLoad f.path = .ok ()) ∧
       defaultLang ∈ files.map translationFile.locale) := by
  have hie : files.isEmpty = false := by
    cases files with
    | nil => exact absurd rfl hne
    | cons f0 rest => rfl
  have hun : NewI18n parse backendLoad newLocalizer defaultLang dir path filePrefixes
      = (match loadAll backendLoad files with
         | .error e => .error e
         | .ok availableLocales =>
             if defaultLang ∈ availableLocales then
               .ok ⟨availableLocales.map (fun l => (l, newLocalizer l)), defaultLang⟩
             else .error (.defaultLocaleMissing defaultLang)) := by
    unfold NewI18n
    rw [hdisc]
    simp only [hie, Bool.false_eq_true, if_false]
  refine ⟨?_, ?_, ?_⟩
  · intro hex
    obtain ⟨p, e, hrun, hf⟩ := loadAll_error_of_mem backendLoad files hex
    exact ⟨p, e, by rw [hun, hrun], hf⟩
  · intro hall hnd
    rw [hun, loadAll_ok_of_all backendLoad files hall]
    simp [hnd]
  · intro s hs
    rw [hun] at hs
    rcases hrun : loadAll backendLoad files with e | locales
    · rw [hrun] at hs
      exact absurd hs (by simp)
    · rw [hrun] at hs
      obtain ⟨hls, hall⟩ := loadAll_ok_locales backendLoad files locales hrun
      by_cases hd : defaultLang ∈ locales
      · exact ⟨hall, hls ▸ hd⟩
      · have hs2 : (if defaultLang ∈ locales then
              Except.ok (⟨locales.map (fun l => (l, newLocalizer l)), defaultLang⟩ :
                I18nLocalizerService α)
            else Except.error (BuildError.defaultLocaleMissing defaultLang)) = Except.ok s := hs
        rw [if_neg hd] at hs2
        exact absurd hs2 (by simp)

/-- Witness for C3: over the single-file directory, with every load
succeeding but the French default absent, construction fails with
defaultLocaleMissing. -/
theorem NewI18n_failfast_witness :
    ([⟨"t/active.en.toml", enTag⟩] : List translationFile) ≠ [] ∧
    NewI18n parseEn (fun _ => .ok ()) (fun l => l.canonical) frTag goodDir "t" []
      = .error (.defaultLocaleMissing frTag) :=
  ⟨by decide,
   (NewI18n_failfast parseEn (fun _ => .ok ()) (fun l => l.canonical) frTag goodDir "t" []
       [⟨"t/active.en.toml", enTag⟩] (by decide) (by decide)).2.1
     (fun f _ => rfl) (by decide)⟩

/-- C4 counterexample: on the filename active.en.TOML the code recognizes
the extension case-insensitively but the case-sensitive trim leaves it in
place, so the candidate locale token is TOML, not the en the claimed
case-insensitive strip would produce. -/
theorem extractCandidate_counterexample :
    extractCandidate "active.en.TOML" = .ok "TOML" ∧
    extractCandidateSpec "active.en.TOML" = .ok "en" ∧
    extractCandidate "active.en.TOML" ≠ extractCandidateSpec "active.en.TOML" := by
  refine ⟨rfl, rfl, ?_⟩
  intro h
  have h1 : extractCandidate "active.en.TOML" = .ok "TOML" := rfl
  have h2 : extractCandidateSpec "active.en.TOML" = .ok "en" := rfl
  rw [h1, h2] at h
  injection h with h
  exact absurd h (by decide)

/-- C4 amended: extraction finds the first supported extension matching as
a case-insensitive suffix but removes it only when the filename ends with
it exactly; the remainder is split on the dot, the final segment is the
candidate locale token, and fewer than two segments is a format error. -/
theorem extractCandidate_amended (filename : String) :
    extractCandidate filename = extractCandidateAmended filename := by
  unfold extractCandidate extractCandidateAmended stripExtension trimSuffix
  rcases h : supportedExtensions.find? (fun ext => strHasSuffix (strToLower filename) ext) with _ | ext
  · rfl
  · rfl

/-- C5: Translate on an actual localizer handle fails with nilMessage and
success false when the message is nil, and with emptyMessageID and success
false when the message ID is empty, whatever the handle, the backend and
the optional fields are. -/
theorem Translate_nil_and_empty {α δ κ : Type}
    (backendLocalize : α → LocalizeConfig δ κ → Except String String) (loc : α)
    (d : Option δ) (p : Option κ) :
    Translate backendLocalize (.localizer loc) none = ("", false, some .nilMessage) ∧
    Translate backendLocalize (.localizer loc) (some ⟨"", d, p⟩)
      = ("", false, some .emptyMessageID) :=
  ⟨rfl, rfl⟩

/-- C6: the restore closure of the second of two swaps re-installs the
service installed by the first swap whatever the holder state has become in
between, and applying any restore closure twice in a row leaves the holder
exactly as applying it once. -/
theorem SetLocalizerService_restore {σ : Type} (s0 A B s' : Option σ) :
    applyRestore (SetLocalizerService (SetLocalizerService s0 A).1 B).2 s' = A ∧
    ∀ (r s'' : Option σ), applyRestore r (applyRestore r s'') = applyRestore r s'' :=
  ⟨rfl, fun _ _ => rfl⟩

/-- C7 counterexample: not every violation's error carries the offending
tag string.  The und sentinel is a violation reachable after a successful
parse (language.Parse accepts the text und), yet its error is the fixed
text undefined language tag, which does not interpolate the canonical form
und at its end the way the two tag-carrying messages do; and the empty-base
violation's fixed text invalid base language does not even contain the
offending canonical form xx anywhere. -/
theorem validateBCP47Locale_counterexample :
    validateBCP47Locale und = some "undefined language tag" ∧
    strHasSuffix "undefined language tag" und.canonical = false ∧
    validateBCP47Locale ⟨"xx", ""⟩ = some "invalid base language" ∧
    strHasSub "invalid base language" "xx" = false := by
  decide

/-- C7 amended: a tag passes validateBCP47Locale exactly when it is not the
und sentinel, its base language subtag is non-empty, its canonical form has
at most 35 characters, and its canonical form contains none of the reserved
characters; any violation fails with one of four error messages, of which
the length and reserved-character ones carry the offending tag string while
the sentinel and base ones are fixed texts. -/
theorem validateBCP47Locale_characterization (tag : Tag) :
    (validateBCP47Locale tag = none ↔
      (tag ≠ und ∧ tag.base ≠ "" ∧ tag.canonical.length ≤ 35 ∧
       strAnyChar tag.canonical (fun c => strHasChar invalidTagChars c) = false)) ∧
    ∀ msg, validateBCP47Locale tag = some msg →
      msg = "undefined language tag" ∨
      msg = "invalid base language" ∨
      msg = "language tag too long: " ++ tag.canonical ∨
      msg = "language tag contains invalid characters: " ++ tag.canonical := by
  unfold validateBCP47Locale
  split_ifs with h1 h2 h3 h4
  · exact ⟨by simp [h1], fun msg hm => Or.inl (Option.some.inj hm).symm⟩
  · exact ⟨by simp [h1, h2], fun msg hm => Or.inr (Or.inl (Option.some.inj hm).symm)⟩
  · exact ⟨by simp_all, fun msg hm => Or.inr (Or.inr (Or.inl (Option.some.inj hm).symm))⟩
  · exact ⟨by simp_all, fun msg hm => Or.inr (Or.inr (Or.inr (Option.some.inj hm).symm))⟩
  · exact ⟨by simp_all, fun msg hm => absurd hm (by simp)⟩

/-- A syntactically fine tag whose canonical form has 36 characters, one
above the validation ceiling. -/
def tag36 : Tag := ⟨"abcdefghijklmnopqrstuvwxyzabcdefghij", "ab"⟩

/-- Witness for the amended C7: the 36-character tag is rejected, and its
error message is the tag-carrying too-long form. -/
theorem validateBCP47Locale_characterization_witness :
    validateBCP47Locale tag36 = some ("language tag too long: " ++ tag36.canonical) ∧
    (("language tag too long: " ++ tag36.canonical) = "undefined language tag" ∨
     ("language tag too long: " ++ tag36.canonical) = "invalid base language" ∨
     ("language tag too long: " ++ tag36.canonical) = "language tag too long: " ++ tag36.canonical ∨
     ("language tag too long: " ++ tag36.canonical)
       = "language tag contains invalid characters: " ++ tag36.canonical) :=
  ⟨by decide,
   (validateBCP47Locale_characterization tag36).2
     ("language tag too long: " ++ tag36.canonical) (by decide)⟩

/-- C8: isValidFile accepts exactly the files whose stat and open both
succeed and whose size is at most maxTranslationFileSize; the boundary size
of 1048576 bytes is accepted and one byte more is rejected. -/
theorem isValidFile_iff :
    (∀ info : FileInfo, isValidFile info
        = (info.statOk && info.openable && decide (info.size ≤ maxTranslationFileSize))) ∧
    isValidFile ⟨true, 1048576, true⟩ = true ∧
    isValidFile ⟨true, 1048577, true⟩ = false := by
  refine ⟨?_, by decide, by decide⟩
  rintro ⟨st, sz, op⟩
  unfold isValidFile
  rcases st <;> rcases op <;> by_cases h : sz ≤ maxTranslationFileSize <;> simp_all

/-- C9: Translate checks the dynamic type of the localizer first: on any
argument that is not a backend localizer it returns the empty string,
success false and an invalidLocalizerType error for every message, nil
included, with a result independent of the backend. -/
theorem Translate_invalid_localizer_type {α δ κ : Type}
    (backendLocalize : α → LocalizeConfig δ κ → Except String String)
    (typeName : String) (message : Option (Message δ κ)) :
    Translate backendLocalize (.other typeName) message
      = ("", false, some (.invalidLocalizerType typeName)) :=
  rfl

/-- C10: NewMessage sets only the ID, leaving Data and PluralCount nil;
WithData and WithPluralCount each update exactly their own field, leaving
the ID and the other optional field untouched, and a later call overwrites
the earlier value. -/
theorem Message_builder {δ κ : Type} (id : String) (m : Message δ κ)
    (d d' : δ) (c c' : κ) :
    (NewMessage id : Message δ κ) = ⟨id, none, none⟩ ∧
    m.WithData d = ⟨m.ID, some d, m.PluralCount⟩ ∧
    m.WithPluralCount c = ⟨m.ID, m.Data, some c⟩ ∧
    (m.WithData d).WithData d' = ⟨m.ID, some d', m.PluralCount⟩ ∧
    (m.WithPluralCount c).WithPluralCount c' = ⟨m.ID, m.Data, some c'⟩ :=
  ⟨rfl, rfl, rfl, rfl, rfl⟩

end Lingo
